import Mathlib

/-!
Verification of the syncforge diffing core: a shallow embedding of the
schema comparator (`table_browser.go`) and the row-level data comparator
(`data_sync.go`), with theorems about their classification, ordering,
quoting, escaping and keying behaviour.

Go maps are modelled as association lists (`List (String × _)`): lookup is
`List.lookup`, construction by repeated assignment is `mapInsert` (later
assignments overwrite), and iteration order — unspecified in Go — is the
list order.  Go `interface{}` values are modelled by `GoValue` (NULL,
integers, booleans and strings, the value shapes the comparator meets once
byte slices are decoded to text); `renderValue` is `fmt.Sprintf` with the
verb v applied to such a value.
-/

namespace SyncForge

/-- Model of the Go `interface{}` values a fetched row can hold after byte
slices are decoded to strings: NULL, integers, booleans and text. -/
inductive GoValue where
  | vnull : GoValue
  | vint : Int → GoValue
  | vbool : Bool → GoValue
  | vstr : String → GoValue
deriving DecidableEq, Repr

/-- `fmt.Sprintf` with verb v on a `GoValue`: Go prints a nil interface as
the text between angle brackets, integers in decimal, booleans as the words
true and false, strings as themselves. -/
def renderValue : GoValue → String
  | GoValue.vnull => "<nil>"
  | GoValue.vint i => toString i
  | GoValue.vbool b => if b then "true" else "false"
  | GoValue.vstr s => s

/-- A row: the Go `map[string]interface{}` from column name to value. -/
abbrev Row := List (String × GoValue)

/-- Go map indexing `row[col]`: the stored value, or the zero value (a nil
interface) when the key is absent. -/
def rowGet (row : Row) (k : String) : GoValue :=
  (row.lookup k).getD GoValue.vnull

/-- Go map assignment `m[k] = v`: overwrite the entry if the key exists,
append it otherwise. -/
def mapInsert {α : Type} (m : List (String × α)) (k : String) (v : α) :
    List (String × α) :=
  if m.any (fun p => p.1 == k) then
    m.map (fun p => if p.1 == k then (k, v) else p)
  else m ++ [(k, v)]

/-- `DBType` from table_browser.go: a string tag. -/
abbrev DBType := String

def MySQL : DBType := "mysql"

def PostgreSQL : DBType := "postgresql"

def SQLite : DBType := "sqlite"

def SQLServer : DBType := "sqlserver"

/-- `quoteIdentifier` from data_sync.go: per-dialect identifier quoting. -/
def quoteIdentifier (dbType : DBType) (name : String) : String :=
  if dbType = MySQL || dbType = "" then "`" ++ name ++ "`"
  else if dbType = PostgreSQL then "\"" ++ name ++ "\""
  else if dbType = SQLite then "\"" ++ name ++ "\""
  else if dbType = SQLServer then "[" ++ name ++ "]"
  else "`" ++ name ++ "`"

/-- `strings.ReplaceAll(s, single quote, two single quotes)` at the level of
character lists: each quote becomes two. -/
def escQuote : List Char → List Char
  | [] => []
  | c :: rest => if c = '\'' then '\'' :: '\'' :: escQuote rest else c :: escQuote rest

/-- The quote-doubling replacement on strings used by `escapeValue`. -/
def replaceQuotes (s : String) : String := String.mk (escQuote s.data)

/-- `escapeValue` from data_sync.go: NULL keyword for nil, numbers as-is,
booleans as 1/0, anything else rendered to text with quotes doubled and
wrapped in single quotes. -/
def escapeValue : GoValue → String
  | GoValue.vnull => "NULL"
  | GoValue.vint i => toString i
  | GoValue.vbool b => if b then "1" else "0"
  | GoValue.vstr s => "'" ++ replaceQuotes s ++ "'"

/-- `rowsEqual` from data_sync.go: same number of entries and, for every
key of `a`, the same text rendering in `b` (missing keys read as nil). -/
def rowsEqual (a b : Row) : Bool :=
  a.length == b.length &&
    a.all (fun p => renderValue p.2 == renderValue (rowGet b p.1))

/-- `extractPrimaryKey` from data_sync.go: the sub-row of the primary-key
columns. -/
def extractPrimaryKey (row : Row) (primaryKeys : List String) : Row :=
  primaryKeys.map (fun key => (key, rowGet row key))

/-- `generateInsertSQL` from data_sync.go. -/
def generateInsertSQL (dbType : DBType) (tableName : String) (row : Row)
    (columns : List String) : String :=
  let present := columns.filter (fun col => (row.lookup col).isSome)
  let cols := present.map (fun col => quoteIdentifier dbType col)
  let vals := present.map (fun col => escapeValue (rowGet row col))
  "INSERT INTO " ++ quoteIdentifier dbType tableName ++ " (" ++
    String.intercalate ", " cols ++ ") VALUES (" ++
    String.intercalate ", " vals ++ ");"

/-- `generateUpdateSQL` from data_sync.go. -/
def generateUpdateSQL (dbType : DBType) (tableName : String) (row : Row)
    (primaryKeys : List String) : String :=
  let sets := (row.filter (fun p => !(primaryKeys.contains p.1))).map
    (fun p => quoteIdentifier dbType p.1 ++ " = " ++ escapeValue p.2)
  let wheres := primaryKeys.map
    (fun pk => quoteIdentifier dbType pk ++ " = " ++ escapeValue (rowGet row pk))
  "UPDATE " ++ quoteIdentifier dbType tableName ++ " SET " ++
    String.intercalate ", " sets ++ " WHERE " ++
    String.intercalate " AND " wheres ++ ";"

/-- `generateDeleteSQL` from data_sync.go. -/
def generateDeleteSQL (dbType : DBType) (tableName : String)
    (primaryKeys : List String) (pk : Row) : String :=
  let wheres := primaryKeys.map
    (fun key => quoteIdentifier dbType key ++ " = " ++ escapeValue (rowGet pk key))
  "DELETE FROM " ++ quoteIdentifier dbType tableName ++ " WHERE " ++
    String.intercalate " AND " wheres ++ ";"

/-- The composite lookup key built in `getTableData` (data_sync.go): the
primary-key values rendered to text and joined with a vertical bar. -/
def buildPkKey (row : Row) (primaryKeys : List String) : String :=
  String.intercalate "|" (primaryKeys.map (fun pk => renderValue (rowGet row pk)))

/-- `getTableData` from data_sync.go, after the query: each fetched value
list is zipped with the column names into a row, and stored in the keyed
map under its composite key (later rows overwrite earlier ones that
serialize to the same key). -/
def getTableData (columns primaryKeys : List String)
    (fetched : List (List GoValue)) : List (String × Row) :=
  fetched.foldl
    (fun data vals =>
      let row : Row := columns.zip vals
      mapInsert data (buildPkKey row primaryKeys) row)
    []

/-- `DataDiffResult` from data_sync.go. -/
structure DataDiffResult where
  type : String
  TableName : String
  PrimaryKey : Row
  OldValues : Option Row
  NewValues : Option Row
  SQL : String
deriving DecidableEq, Repr

/-- The comparison loops of `CompareTableData` (data_sync.go, lines
193–235): inserts and updates from the source keyed map, then deletes from
the target keyed map. -/
def compareKeyedData (targetType : DBType) (tableName : String)
    (primaryKeys columns : List String)
    (sourceData targetData : List (String × Row)) : List DataDiffResult :=
  let upserts := sourceData.filterMap (fun p =>
    match targetData.lookup p.1 with
    | some targetRow =>
      if rowsEqual p.2 targetRow then none
      else some { type := "update", TableName := tableName,
                  PrimaryKey := extractPrimaryKey p.2 primaryKeys,
                  OldValues := some targetRow, NewValues := some p.2,
                  SQL := generateUpdateSQL targetType tableName p.2 primaryKeys }
    | none =>
      some { type := "insert", TableName := tableName,
             PrimaryKey := extractPrimaryKey p.2 primaryKeys,
             OldValues := none, NewValues := some p.2,
             SQL := generateInsertSQL targetType tableName p.2 columns })
  let deletes := targetData.filterMap (fun p =>
    match sourceData.lookup p.1 with
    | some _ => none
    | none =>
      let pk := extractPrimaryKey p.2 primaryKeys
      some { type := "delete", TableName := tableName, PrimaryKey := pk,
             OldValues := some p.2, NewValues := none,
             SQL := generateDeleteSQL targetType tableName primaryKeys pk })
  upserts ++ deletes

/-- `CompareTableData` from data_sync.go, with I/O factored out: the
primary-key and column metadata and the two fetched row lists are inputs.
The second component counts how many table extents were fetched (each
`getTableData` call is one fetch); the function mirrors the source's
sequencing, which checks the primary-key list before fetching either
side. -/
def CompareTableData (sourceType targetType : DBType) (tableName : String)
    (primaryKeys columns : List String)
    (sourceFetched targetFetched : List (List GoValue)) :
    Except String (List DataDiffResult) × Nat :=
  if primaryKeys.length = 0 then
    (Except.error ("table " ++ tableName ++ " has no primary key"), 0)
  else
    let sourceData := getTableData columns primaryKeys sourceFetched
    let targetData := getTableData columns primaryKeys targetFetched
    (Except.ok
      (compareKeyedData targetType tableName primaryKeys columns sourceData targetData),
     2)

/-- `ColumnInfo` from table_browser.go. -/
structure ColumnInfo where
  Name : String
  type : String
  Nullable : String
  Key : String
  Default : Option String
  Extra : String
  Position : Int
deriving DecidableEq, Repr

/-- `IndexInfo` from table_browser.go. -/
structure IndexInfo where
  Name : String
  NonUnique : Int
  Column : String
  SeqInIdx : Int
deriving DecidableEq, Repr

/-- `TableInfo` from table_browser.go. -/
structure TableInfo where
  Name : String
  CreateSQL : String
  Columns : List ColumnInfo
  Indexes : List IndexInfo
deriving DecidableEq, Repr

/-- `SchemaInfo` from table_browser.go; the table map is an association
list. -/
structure SchemaInfo where
  Database : String
  Tables : List (String × TableInfo)
deriving DecidableEq, Repr

/-- `DiffResult` from table_browser.go. -/
structure DiffResult where
  type : String
  TableName : String
  Detail : String
  SQL : String
deriving DecidableEq, Repr

/-- `isNumericDefault`'s character loop (table_browser.go): a minus sign is
allowed at index 0, a dot anywhere, otherwise only digits. -/
def numericScan : List Char → Nat → Bool
  | [], _ => true
  | c :: rest, i =>
    if i == 0 && c == '-' then numericScan rest (i + 1)
    else if c == '.' then numericScan rest (i + 1)
    else if c < '0' || c > '9' then false
    else numericScan rest (i + 1)

/-- `isNumericDefault` from table_browser.go. -/
def isNumericDefault (val : String) : Bool :=
  if val = "" then false else numericScan val.data 0

/-- Go `strings.ToUpper`, character-wise (the defaults classified here are
ASCII keyword/function text, where Go's Unicode case mapping agrees with
the ASCII one). -/
def stringsToUpper (s : String) : String := String.mk (s.data.map Char.toUpper)

/-- Go `strings.HasSuffix` on the character sequence. -/
def hasSuffixB (s suf : String) : Bool := suf.data.isSuffixOf s.data

/-- Go `strings.HasPrefix` on the character sequence. -/
def hasPrefixB (s p : String) : Bool := p.data.isPrefixOf s.data

/-- `isSpecialDefault` from table_browser.go. -/
def isSpecialDefault (val : String) : Bool :=
  let upper := stringsToUpper val
  let specialDefaults :=
    ["NULL", "CURRENT_TIMESTAMP", "CURRENT_DATE", "CURRENT_TIME", "NOW()",
     "TRUE", "FALSE"]
  if specialDefaults.contains upper then true
  else if hasSuffixB upper "()" || hasPrefixB upper "(" then true
  else false

/-- `buildColumnDef` from table_browser.go. -/
def buildColumnDef (col : ColumnInfo) : String :=
  let d1 := col.type
  let d2 := if col.Nullable = "NO" then d1 ++ " NOT NULL" else d1
  let d3 :=
    match col.Default with
    | some defaultVal =>
      if isNumericDefault defaultVal || isSpecialDefault defaultVal then
        d2 ++ " DEFAULT " ++ defaultVal
      else d2 ++ " DEFAULT '" ++ defaultVal ++ "'"
    | none => d2
  if col.Extra ≠ "" then d3 ++ " " ++ col.Extra else d3

/-- `defaultsEqual` from table_browser.go. -/
def defaultsEqual : Option String → Option String → Bool
  | none, none => true
  | none, some _ => false
  | some _, none => false
  | some a, some b => a == b

/-- `columnsEqual` from table_browser.go. -/
def columnsEqual (a b : ColumnInfo) : Bool :=
  a.type == b.type && a.Nullable == b.Nullable && a.Extra == b.Extra &&
    defaultsEqual a.Default b.Default

/-- Go map append `result[k] = append(result[k], v)` used by
`buildIndexMap`. -/
def mapAppend (m : List (String × List String)) (k : String) (v : String) :
    List (String × List String) :=
  if m.any (fun p => p.1 == k) then
    m.map (fun p => if p.1 == k then (p.1, p.2 ++ [v]) else p)
  else m ++ [(k, [v])]

/-- `buildIndexMap` from table_browser.go: index name to the backtick-quoted
column list, in descriptor order. -/
def buildIndexMap (indexes : List IndexInfo) : List (String × List String) :=
  indexes.foldl (fun m idx => mapAppend m idx.Name ("`" ++ idx.Column ++ "`")) []

/-- `stringSlicesEqual` from table_browser.go. -/
def stringSlicesEqual (a b : List String) : Bool :=
  a.length == b.length && (a.zip b).all (fun p => p.1 == p.2)

/-- `compareTableStructure` from table_browser.go: column adds, column
drops, column modifications, index adds/recreations, index drops, in that
order. -/
def compareTableStructure (tableName : String) (source target : TableInfo) :
    List DiffResult :=
  let sourceColMap : List (String × ColumnInfo) :=
    source.Columns.map (fun c => (c.Name, c))
  let targetColMap : List (String × ColumnInfo) :=
    target.Columns.map (fun c => (c.Name, c))
  let addedCols := sourceColMap.filterMap (fun p =>
    match targetColMap.lookup p.1 with
    | some _ => none
    | none =>
      let afterClause :=
        if p.2.Position > (1 : Int) then
          match source.Columns.find? (fun c => c.Position == p.2.Position - 1) with
          | some c => " AFTER `" ++ c.Name ++ "`"
          | none => ""
        else " FIRST"
      some { type := "modified", TableName := tableName,
             Detail := "Add column: " ++ p.1,
             SQL := "ALTER TABLE `" ++ tableName ++ "` ADD COLUMN `" ++ p.1 ++
               "` " ++ buildColumnDef p.2 ++ afterClause ++ ";" })
  let droppedCols := targetColMap.filterMap (fun p =>
    match sourceColMap.lookup p.1 with
    | some _ => none
    | none =>
      some { type := "modified", TableName := tableName,
             Detail := "Drop column: " ++ p.1,
             SQL := "ALTER TABLE `" ++ tableName ++ "` DROP COLUMN `" ++
               p.1 ++ "`;" })
  let modifiedCols := sourceColMap.filterMap (fun p =>
    match targetColMap.lookup p.1 with
    | some targetCol =>
      if columnsEqual p.2 targetCol then none
      else
        some { type := "modified", TableName := tableName,
               Detail := "Modify column: " ++ p.1 ++ " (" ++ targetCol.type ++
                 " -> " ++ p.2.type ++ ")",
               SQL := "ALTER TABLE `" ++ tableName ++ "` MODIFY COLUMN `" ++
                 p.1 ++ "` " ++ buildColumnDef p.2 ++ ";" }
    | none => none)
  let sourceIdxMap := buildIndexMap source.Indexes
  let targetIdxMap := buildIndexMap target.Indexes
  let addedIdx := sourceIdxMap.filterMap (fun p =>
    if p.1 = "PRIMARY" then none
    else
      match targetIdxMap.lookup p.1 with
      | none =>
        some { type := "modified", TableName := tableName,
               Detail := "Add index: " ++ p.1,
               SQL := "ALTER TABLE `" ++ tableName ++ "` ADD INDEX `" ++ p.1 ++
                 "` (" ++ String.intercalate ", " p.2 ++ ");" }
      | some targetCols =>
        if stringSlicesEqual p.2 targetCols then none
        else
          some { type := "modified", TableName := tableName,
                 Detail := "Recreate index: " ++ p.1,
                 SQL := "ALTER TABLE `" ++ tableName ++ "` DROP INDEX `" ++
                   p.1 ++ "`, ADD INDEX `" ++ p.1 ++ "` (" ++
                   String.intercalate ", " p.2 ++ ");" })
  let droppedIdx := targetIdxMap.filterMap (fun p =>
    if p.1 = "PRIMARY" then none
    else
      match sourceIdxMap.lookup p.1 with
      | some _ => none
      | none =>
        some { type := "modified", TableName := tableName,
               Detail := "Drop index: " ++ p.1,
               SQL := "ALTER TABLE `" ++ tableName ++ "` DROP INDEX `" ++
                 p.1 ++ "`;" })
  addedCols ++ droppedCols ++ modifiedCols ++ addedIdx ++ droppedIdx

/-- The order assigned to a diff kind by the sort in `CompareSchemas`: the
Go map gives added 0, modified 1, removed 2, and any other string reads the
map's zero value 0. -/
def typeOrder (t : String) : Nat :=
  if t = "added" then 0 else if t = "modified" then 1
  else if t = "removed" then 2 else 0

/-- Lexicographic comparison of character lists: the computable form of
Go's byte-wise string comparison (and of Lean's list order). -/
def charListLess : List Char → List Char → Bool
  | [], [] => false
  | [], _ :: _ => true
  | _ :: _, [] => false
  | c :: cs, d :: ds =>
    if c < d then true else if d < c then false else charListLess cs ds

/-- Go's `<` on strings: lexicographic on the character sequence. -/
def goStringLess (a b : String) : Bool := charListLess a.data b.data

/-- The `less` closure passed to `sort.Slice` in `CompareSchemas`. -/
def diffLess (a b : DiffResult) : Bool :=
  if a.type ≠ b.type then decide (typeOrder a.type < typeOrder b.type)
  else goStringLess a.TableName b.TableName

/-- Insert into a list sorted by the `sort.Slice` contract: `x` goes before
the first element `y` it need not follow (`diffLess y x` is false). -/
def insertSorted (x : DiffResult) : List DiffResult → List DiffResult
  | [] => [x]
  | y :: ys => if !diffLess y x then x :: y :: ys else y :: insertSorted x ys

/-- Model of `sort.Slice(results, less)`: any output satisfying the sort
contract is a faithful model of Go's unstable sort; insertion sort is
used. -/
def sortResults (l : List DiffResult) : List DiffResult :=
  l.foldr insertSorted []

/-- `CompareSchemas` from table_browser.go: tables only in source, tables
only in target, then per-table structural differences, sorted by kind
order and table name. -/
def CompareSchemas (source target : SchemaInfo) : List DiffResult :=
  let added := source.Tables.filterMap (fun p =>
    match target.Tables.lookup p.1 with
    | some _ => none
    | none =>
      some { type := "added", TableName := p.1,
             Detail := "Table exists in source but not in target",
             SQL := p.2.CreateSQL ++ ";" })
  let removed := target.Tables.filterMap (fun p =>
    match source.Tables.lookup p.1 with
    | some _ => none
    | none =>
      some { type := "removed", TableName := p.1,
             Detail := "Table exists in target but not in source",
             SQL := "DROP TABLE `" ++ p.1 ++ "`;" })
  let modified := (source.Tables.map (fun p =>
    match target.Tables.lookup p.1 with
    | some targetTable => compareTableStructure p.1 p.2 targetTable
    | none => [])).flatten
  sortResults (added ++ removed ++ modified)

/-! ### Association-list helpers -/

theorem lookup_eq_some_of_mem {α : Type} {l : List (String × α)} {k : String}
    {v : α} (hnd : (l.map Prod.fst).Nodup) (hmem : (k, v) ∈ l) :
    l.lookup k = some v := by
  induction l with
  | nil => cases hmem
  | cons hd tl ih =>
    obtain ⟨k0, v0⟩ := hd
    simp only [List.map_cons, List.nodup_cons, List.mem_map] at hnd
    rcases List.mem_cons.mp hmem with heq | htl
    · cases heq
      simp [List.lookup_cons]
    · have hne : k0 ≠ k := by
        intro h
        exact hnd.1 ⟨(k, v), htl, by simp [h]⟩
      have hb : (k == k0) = false := by simp [Ne.symm hne]
      simp only [List.lookup_cons, hb]
      exact ih hnd.2 htl

theorem lookup_isSome_of_mem {α : Type} {l : List (String × α)} {k : String}
    {v : α} (hmem : (k, v) ∈ l) : (l.lookup k).isSome := by
  induction l with
  | nil => cases hmem
  | cons hd tl ih =>
    obtain ⟨k0, v0⟩ := hd
    rcases List.mem_cons.mp hmem with heq | htl
    · cases heq
      simp [List.lookup_cons]
    · by_cases h : k == k0
      · simp [List.lookup_cons, h]
      · simp only [List.lookup_cons]
        simpa [h] using ih htl

theorem lookup_isSome_iff_mem_keys {α : Type} (l : List (String × α))
    (k : String) : (l.lookup k).isSome = true ↔ k ∈ l.map Prod.fst := by
  induction l with
  | nil => simp [List.lookup]
  | cons hd tl ih =>
    obtain ⟨k0, v0⟩ := hd
    by_cases h : k = k0
    · subst h
      simp [List.lookup_cons]
    · have hb : (k == k0) = false := by simp [h]
      simp only [List.lookup_cons, List.map_cons, List.mem_cons, hb]
      simp [ih, h]

theorem lookup_eq_none_iff_not_mem_keys {α : Type} (l : List (String × α))
    (k : String) : l.lookup k = none ↔ k ∉ l.map Prod.fst := by
  rw [← lookup_isSome_iff_mem_keys]
  cases h : l.lookup k <;> simp [h]

theorem mem_of_lookup_eq_some {α : Type} {l : List (String × α)} {k : String}
    {v : α} (h : l.lookup k = some v) : (k, v) ∈ l := by
  induction l with
  | nil => cases h
  | cons hd tl ih =>
    obtain ⟨k0, v0⟩ := hd
    by_cases hk : k = k0
    · subst hk
      simp only [List.lookup_cons, beq_self_eq_true] at h
      injection h with h2
      subst h2
      exact List.mem_cons_self _ _
    · have hb : (k == k0) = false := by simp [hk]
      simp only [List.lookup_cons, hb] at h
      exact List.mem_cons_of_mem _ (ih h)

/-- Two association lists that are permutations of each other with unique
keys — two iteration orders of one Go map — agree on every lookup. -/
theorem lookup_eq_of_perm {α : Type} {l1 l2 : List (String × α)}
    (hp : l1.Perm l2) (hnd : (l1.map Prod.fst).Nodup) (k : String) :
    l1.lookup k = l2.lookup k := by
  have hnd2 : (l2.map Prod.fst).Nodup := (hp.map Prod.fst).nodup_iff.mp hnd
  cases h : l1.lookup k with
  | some v =>
    have hm : (k, v) ∈ l2 := hp.mem_iff.mp (mem_of_lookup_eq_some h)
    rw [lookup_eq_some_of_mem hnd2 hm]
  | none =>
    rw [lookup_eq_none_iff_not_mem_keys] at h
    rw [eq_comm, lookup_eq_none_iff_not_mem_keys]
    intro hmem
    exact h ((hp.map Prod.fst).mem_iff.mpr hmem)

/-! ### Reflexivity of the equality tests -/

theorem rowsEqual_refl {r : Row} (h : (r.map Prod.fst).Nodup) :
    rowsEqual r r = true := by
  simp only [rowsEqual, Bool.and_eq_true, beq_self_eq_true, true_and,
    List.all_eq_true]
  intro p hp
  have : r.lookup p.1 = some p.2 := lookup_eq_some_of_mem h hp
  simp [rowGet, this]

theorem columnsEqual_refl (c : ColumnInfo) : columnsEqual c c = true := by
  cases h : c.Default <;> simp [columnsEqual, defaultsEqual, h]

theorem zip_self_eq {α : Type} {l : List α} {p : α × α}
    (hp : p ∈ l.zip l) : p.1 = p.2 := by
  induction l with
  | nil => cases hp
  | cons hd tl ih =>
    rcases List.mem_cons.mp hp with heq | htl
    · subst heq; rfl
    · exact ih htl

theorem stringSlicesEqual_refl (l : List String) :
    stringSlicesEqual l l = true := by
  simp only [stringSlicesEqual, Bool.and_eq_true, beq_self_eq_true, true_and,
    List.all_eq_true]
  intro p hp
  exact beq_iff_eq.mpr (zip_self_eq hp)

/-! ### `buildIndexMap` invariants -/

theorem mapAppend_keys (m : List (String × List String)) (k v : String) :
    (mapAppend m k v).map Prod.fst =
      if m.any (fun p => p.1 == k) then m.map Prod.fst
      else m.map Prod.fst ++ [k] := by
  by_cases h : m.any (fun p => p.1 == k)
  · simp only [mapAppend, h, if_true, List.map_map]
    congr 1
    funext p
    by_cases hp : p.1 = k <;> simp [hp]
  · simp only [mapAppend, h]
    simp

theorem mapAppend_keys_nodup {m : List (String × List String)} {k v : String}
    (h : (m.map Prod.fst).Nodup) : ((mapAppend m k v).map Prod.fst).Nodup := by
  rw [mapAppend_keys]
  by_cases hc : m.any (fun p => p.1 == k)
  · simpa [hc] using h
  · have hk : k ∉ m.map Prod.fst := by
      intro hmem
      rcases List.mem_map.mp hmem with ⟨p, hp, hpk⟩
      exact hc (List.any_eq_true.mpr ⟨p, hp, by simp [hpk]⟩)
    simp only [hc, if_false]
    exact List.Nodup.append h (List.nodup_singleton k) (by
      intro a ha hb
      rcases List.mem_singleton.mp hb with rfl
      exact hk ha)

theorem buildIndexMap_keys_nodup (indexes : List IndexInfo) :
    ((buildIndexMap indexes).map Prod.fst).Nodup := by
  suffices h : ∀ m : List (String × List String), (m.map Prod.fst).Nodup →
      ((indexes.foldl (fun m idx =>
        mapAppend m idx.Name ("`" ++ idx.Column ++ "`")) m).map Prod.fst).Nodup by
    exact h [] (by simp)
  induction indexes with
  | nil => intro m hm; simpa using hm
  | cons hd tl ih =>
    intro m hm
    exact ih _ (mapAppend_keys_nodup hm)

/-! ### The sort at the end of `CompareSchemas` -/

theorem mem_insertSorted {x a : DiffResult} {l : List DiffResult} :
    a ∈ insertSorted x l ↔ a = x ∨ a ∈ l := by
  induction l with
  | nil => simp [insertSorted]
  | cons y ys ih =>
    by_cases h : diffLess y x
    · simp only [insertSorted, h, Bool.not_true, Bool.false_eq_true, if_false,
        List.mem_cons, ih]
      try tauto
    · have h' : diffLess y x = false := by simpa using h
      simp only [insertSorted, h', Bool.not_false, if_true, List.mem_cons]
      try tauto

theorem sortResults_cons (x : DiffResult) (l : List DiffResult) :
    sortResults (x :: l) = insertSorted x (sortResults l) := rfl

theorem mem_sortResults {a : DiffResult} {l : List DiffResult} :
    a ∈ sortResults l ↔ a ∈ l := by
  induction l with
  | nil => simp [sortResults]
  | cons y ys ih =>
    rw [sortResults_cons, mem_insertSorted]
    simp [ih]

theorem perm_insertSorted (x : DiffResult) (l : List DiffResult) :
    (insertSorted x l).Perm (x :: l) := by
  induction l with
  | nil => simp [insertSorted]
  | cons y ys ih =>
    by_cases h : diffLess y x
    · simp only [insertSorted, h, Bool.not_true, Bool.false_eq_true, if_false]
      exact (ih.cons y).trans (List.Perm.swap x y ys)
    · have h' : diffLess y x = false := by simpa using h
      simp [insertSorted, h']

theorem perm_sortResults (l : List DiffResult) : (sortResults l).Perm l := by
  induction l with
  | nil => simp [sortResults]
  | cons y ys ih =>
    rw [sortResults_cons]
    exact (perm_insertSorted y (sortResults ys)).trans (ih.cons y)

theorem charListLess_iff (l1 l2 : List Char) :
    charListLess l1 l2 = true ↔ l1 < l2 := by
  induction l1 generalizing l2 with
  | nil =>
    cases l2 with
    | nil =>
      simp only [charListLess, Bool.false_eq_true, false_iff]
      exact fun h => nomatch h
    | cons d ds =>
      simp only [charListLess, true_iff]
      exact List.Lex.nil
  | cons c cs ih =>
    cases l2 with
    | nil =>
      simp only [charListLess, Bool.false_eq_true, false_iff]
      exact fun h => nomatch h
    | cons d ds =>
      by_cases h1 : c < d
      · simp only [charListLess, if_pos h1, true_iff]
        exact List.Lex.rel h1
      · by_cases h2 : d < c
        · simp only [charListLess, if_neg h1, if_pos h2, Bool.false_eq_true,
            false_iff]
          intro hlt
          cases hlt with
          | cons h => exact absurd h2 (lt_irrefl c)
          | rel h => exact h1 h
        · have heq : c = d := le_antisymm (le_of_not_lt h2) (le_of_not_lt h1)
          subst heq
          simp only [charListLess, if_neg h1, if_neg h2, ih]
          constructor
          · exact fun h => List.Lex.cons h
          · intro hlt
            cases hlt with
            | cons h => exact h
            | rel h => exact absurd h h1

theorem goStringLess_iff (a b : String) : goStringLess a b = true ↔ a < b := by
  rw [String.lt_iff_toList_lt]
  exact charListLess_iff a.data b.data

theorem goStringLess_eq_false (a b : String) :
    goStringLess a b = false ↔ ¬a < b := by
  rw [← goStringLess_iff]
  cases goStringLess a b <;> simp

/-- The order claimed by the spec: kind precedence first, then table name
ascending among entries of the same kind. -/
def specDiffOrder (a b : DiffResult) : Prop :=
  typeOrder a.type < typeOrder b.type ∨
    (a.type = b.type ∧ a.TableName ≤ b.TableName)

/-- The three kinds a schema-diff entry can carry. -/
def KnownKind (e : DiffResult) : Prop :=
  e.type = "added" ∨ e.type = "modified" ∨ e.type = "removed"

theorem specDiffOrder_trans {a b c : DiffResult} (hab : specDiffOrder a b)
    (hbc : specDiffOrder b c) : specDiffOrder a c := by
  rcases hab with h1 | ⟨h1, h1n⟩ <;> rcases hbc with h2 | ⟨h2, h2n⟩
  · exact Or.inl (lt_trans h1 h2)
  · exact Or.inl (by rw [← h2]; exact h1)
  · exact Or.inl (by rw [h1]; exact h2)
  · exact Or.inr ⟨h1.trans h2, le_trans h1n h2n⟩

theorem specDiffOrder_of_not_lt {a b : DiffResult} (ha : KnownKind a)
    (hb : KnownKind b) (h : diffLess b a = false) : specDiffOrder a b := by
  unfold diffLess at h
  by_cases ht : b.type = a.type
  · rw [if_neg (not_not_intro ht)] at h
    exact Or.inr ⟨ht.symm, le_of_not_lt ((goStringLess_eq_false _ _).mp h)⟩
  · rw [if_pos ht] at h
    have hle : typeOrder a.type ≤ typeOrder b.type :=
      le_of_not_lt (by simpa using h)
    have hne : typeOrder a.type ≠ typeOrder b.type := by
      rcases ha with h1 | h1 | h1 <;> rcases hb with h2 | h2 | h2 <;>
        rw [h1, h2] at ht ⊢ <;> first | exact absurd rfl ht | decide
    exact Or.inl (lt_of_le_of_ne hle hne)

theorem specDiffOrder_of_lt {a b : DiffResult} (h : diffLess a b = true) :
    specDiffOrder a b := by
  unfold diffLess at h
  by_cases ht : a.type = b.type
  · rw [if_neg (not_not_intro ht)] at h
    exact Or.inr ⟨ht, le_of_lt ((goStringLess_iff _ _).mp h)⟩
  · rw [if_pos ht] at h
    exact Or.inl (by simpa using h)

theorem pairwise_insertSorted {x : DiffResult} {l : List DiffResult}
    (hx : KnownKind x) (hl : ∀ e ∈ l, KnownKind e)
    (h : l.Pairwise specDiffOrder) :
    (insertSorted x l).Pairwise specDiffOrder := by
  induction l with
  | nil => simp [insertSorted]
  | cons y ys ih =>
    rcases List.pairwise_cons.mp h with ⟨hy, hys⟩
    by_cases hc : diffLess y x
    · simp only [insertSorted, hc, Bool.not_true, Bool.false_eq_true, if_false]
      refine List.pairwise_cons.mpr ⟨?_, ih (fun e he => hl e (by simp [he])) hys⟩
      intro w hw
      rcases mem_insertSorted.mp hw with rfl | hwys
      · exact specDiffOrder_of_lt hc
      · exact hy w hwys
    · have hc' : diffLess y x = false := by simpa using hc
      simp only [insertSorted, hc', Bool.not_false, if_true]
      refine List.pairwise_cons.mpr ⟨?_, h⟩
      intro w hw
      rcases List.mem_cons.mp hw with rfl | hwys
      · exact specDiffOrder_of_not_lt hx (hl w (by simp)) hc'
      · exact specDiffOrder_trans
          (specDiffOrder_of_not_lt hx (hl y (by simp)) hc') (hy w hwys)

theorem pairwise_sortResults {l : List DiffResult}
    (hl : ∀ e ∈ l, KnownKind e) :
    (sortResults l).Pairwise specDiffOrder := by
  induction l with
  | nil => simp [sortResults]
  | cons y ys ih =>
    rw [sortResults_cons]
    refine pairwise_insertSorted (hl y (by simp)) ?_ (ih ?_)
    · intro e he
      exact hl e (by simp [mem_sortResults.mp he])
    · intro e he
      exact hl e (by simp [he])

/-! ### Shape of the entries emitted by the schema diff engine -/

theorem compareTableStructure_entry {tn : String} {s t : TableInfo}
    {e : DiffResult} (h : e ∈ compareTableStructure tn s t) :
    e.type = "modified" ∧ e.TableName = tn := by
  simp only [compareTableStructure, List.mem_append, List.mem_filterMap] at h
  rcases h with ((((⟨p, hp, hfa⟩ | ⟨p, hp, hfa⟩) | ⟨p, hp, hfa⟩) |
    ⟨p, hp, hfa⟩) | ⟨p, hp, hfa⟩)
  all_goals repeat' split at hfa
  all_goals first
    | exact Option.noConfusion hfa
    | (injection hfa with h2; subst h2; exact ⟨rfl, rfl⟩)

theorem mem_compareSchemas_iff {A B : SchemaInfo} {e : DiffResult} :
    e ∈ CompareSchemas A B ↔
      (∃ p ∈ A.Tables, B.Tables.lookup p.1 = none ∧
        e = { type := "added", TableName := p.1,
              Detail := "Table exists in source but not in target",
              SQL := p.2.CreateSQL ++ ";" }) ∨
      (∃ p ∈ B.Tables, A.Tables.lookup p.1 = none ∧
        e = { type := "removed", TableName := p.1,
              Detail := "Table exists in target but not in source",
              SQL := "DROP TABLE `" ++ p.1 ++ "`;" }) ∨
      (∃ p ∈ A.Tables, ∃ tt, B.Tables.lookup p.1 = some tt ∧
        e ∈ compareTableStructure p.1 p.2 tt) := by
  simp only [CompareSchemas]
  rw [mem_sortResults]
  simp only [List.mem_append, List.mem_filterMap, List.mem_flatten,
    List.mem_map]
  constructor
  · rintro ((⟨p, hp, hfa⟩ | ⟨p, hp, hfa⟩) | ⟨l, ⟨p, hp, rfl⟩, hel⟩)
    · cases hb : B.Tables.lookup p.1 with
      | none =>
        rw [hb] at hfa
        injection hfa with h2
        exact Or.inl ⟨p, hp, hb, h2.symm⟩
      | some tt =>
        rw [hb] at hfa
        exact Option.noConfusion hfa
    · cases hb : A.Tables.lookup p.1 with
      | none =>
        rw [hb] at hfa
        injection hfa with h2
        exact Or.inr (Or.inl ⟨p, hp, hb, h2.symm⟩)
      | some tt =>
        rw [hb] at hfa
        exact Option.noConfusion hfa
    · cases hb : B.Tables.lookup p.1 with
      | none =>
        rw [hb] at hel
        cases hel
      | some tt =>
        rw [hb] at hel
        exact Or.inr (Or.inr ⟨p, hp, tt, hb, hel⟩)
  · rintro (⟨p, hp, hb, rfl⟩ | ⟨p, hp, hb, rfl⟩ | ⟨p, hp, tt, hb, he⟩)
    · exact Or.inl (Or.inl ⟨p, hp, by rw [hb]⟩)
    · exact Or.inl (Or.inr ⟨p, hp, by rw [hb]⟩)
    · exact Or.inr ⟨_, ⟨p, hp, rfl⟩, by rw [hb]; exact he⟩

theorem knownKind_of_mem_compareSchemas {A B : SchemaInfo} {e : DiffResult}
    (h : e ∈ CompareSchemas A B) : KnownKind e := by
  rcases mem_compareSchemas_iff.mp h with ⟨p, hp, hb, rfl⟩ | ⟨p, hp, hb, rfl⟩ |
    ⟨p, hp, tt, hb, he⟩
  · exact Or.inl rfl
  · exact Or.inr (Or.inr rfl)
  · exact Or.inr (Or.inl (compareTableStructure_entry he).1)

theorem pairwise_sortResults_of_known {l : List DiffResult}
    (hl : ∀ e ∈ sortResults l, KnownKind e) :
    (sortResults l).Pairwise specDiffOrder :=
  pairwise_sortResults (fun e he => hl e (mem_sortResults.mpr he))

/-! ### Un-escaping a single-quoted SQL literal -/

/-- Undo quote doubling: each pair of adjacent single quotes becomes one. -/
def unesc : List Char → List Char
  | [] => []
  | [c] => [c]
  | c1 :: c2 :: rest =>
    if c1 = '\'' ∧ c2 = '\'' then '\'' :: unesc rest
    else c1 :: unesc (c2 :: rest)

/-- Modelled from the spec: re-parsing a single-quoted SQL string literal
(the inverse step of the escaping round trip; no parser exists in the
repository). The literal must start and end with a single quote; the text
between them has each doubled quote collapsed back to one. -/
def unescapeLiteral (s : String) : Option String :=
  match s.data with
  | [] => none
  | c :: rest =>
    if c = '\'' ∧ rest ≠ [] ∧ rest.getLast? = some '\'' then
      some (String.mk (unesc rest.dropLast))
    else none

theorem escQuote_eq_nil_iff (l : List Char) : escQuote l = [] ↔ l = [] := by
  cases l with
  | nil => simp [escQuote]
  | cons c r => by_cases h : c = '\'' <;> simp [escQuote, h]

theorem unesc_cons_cons (c1 c2 : Char) (rest : List Char) :
    unesc (c1 :: c2 :: rest) =
      if c1 = '\'' ∧ c2 = '\'' then '\'' :: unesc rest
      else c1 :: unesc (c2 :: rest) := by
  rw [unesc.eq_def]

theorem unesc_escQuote (l : List Char) : unesc (escQuote l) = l := by
  induction l with
  | nil => simp [escQuote, unesc]
  | cons c r ih =>
    by_cases h : c = '\''
    · subst h
      have hq : escQuote ('\'' :: r) = '\'' :: '\'' :: escQuote r := by
        simp [escQuote]
      rw [hq, unesc_cons_cons, if_pos ⟨rfl, rfl⟩, ih]
    · simp only [escQuote, if_neg h]
      cases hr : escQuote r with
      | nil =>
        have hr0 : r = [] := (escQuote_eq_nil_iff r).mp hr
        subst hr0
        simp [unesc]
      | cons d rest =>
        rw [unesc_cons_cons, if_neg (by simp [h]), ← hr, ih]

theorem string_mk_data (s : String) : String.mk s.data = s := by
  cases s
  rfl

theorem unescape_escape (s : String) :
    unescapeLiteral ("'" ++ replaceQuotes s ++ "'") = some s := by
  have hdata : ("'" ++ replaceQuotes s ++ "'").data =
      '\'' :: (escQuote s.data ++ ['\'']) := by
    simp [String.data_append, replaceQuotes]
  unfold unescapeLiteral
  rw [hdata]
  dsimp only
  rw [if_pos ⟨rfl, by simp, List.getLast?_concat _⟩]
  rw [List.dropLast_concat, unesc_escQuote, string_mk_data]

/-! ### Comparing a snapshot or keyed row set with itself -/

theorem colMap_keys (cs : List ColumnInfo) :
    ((cs.map (fun c => (c.Name, c))).map Prod.fst) = cs.map ColumnInfo.Name := by
  simp [List.map_map]

theorem compareTableStructure_self (tn : String) (t : TableInfo)
    (h : (t.Columns.map ColumnInfo.Name).Nodup) :
    compareTableStructure tn t t = [] := by
  have hnd : ((t.Columns.map (fun c => (c.Name, c))).map Prod.fst).Nodup := by
    rw [colMap_keys]; exact h
  simp only [compareTableStructure, List.append_eq_nil, List.filterMap_eq_nil]
  refine ⟨⟨⟨⟨?_, ?_⟩, ?_⟩, ?_⟩, ?_⟩
  · intro p hp
    obtain ⟨c, hc, rfl⟩ := List.mem_map.mp hp
    obtain ⟨v, hv⟩ := Option.isSome_iff_exists.mp
      (lookup_isSome_of_mem (l := t.Columns.map (fun c => (c.Name, c)))
        (k := c.Name) (v := c) (List.mem_map.mpr ⟨c, hc, rfl⟩))
    simp [hv]
  · intro p hp
    obtain ⟨c, hc, rfl⟩ := List.mem_map.mp hp
    obtain ⟨v, hv⟩ := Option.isSome_iff_exists.mp
      (lookup_isSome_of_mem (l := t.Columns.map (fun c => (c.Name, c)))
        (k := c.Name) (v := c) (List.mem_map.mpr ⟨c, hc, rfl⟩))
    simp [hv]
  · intro p hp
    obtain ⟨c, hc, rfl⟩ := List.mem_map.mp hp
    have hl : (t.Columns.map (fun c => (c.Name, c))).lookup c.Name = some c :=
      lookup_eq_some_of_mem hnd (List.mem_map.mpr ⟨c, hc, rfl⟩)
    simp [hl, columnsEqual_refl]
  · intro p hp
    by_cases hP : p.1 = "PRIMARY"
    · simp [hP]
    · have hl : (buildIndexMap t.Indexes).lookup p.1 = some p.2 :=
        lookup_eq_some_of_mem (buildIndexMap_keys_nodup _) (by simpa using hp)
      simp [hP, hl, stringSlicesEqual_refl]
  · intro p hp
    by_cases hP : p.1 = "PRIMARY"
    · simp [hP]
    · obtain ⟨v, hv⟩ := Option.isSome_iff_exists.mp
        (lookup_isSome_of_mem (l := buildIndexMap t.Indexes)
          (by simpa using hp))
      simp [hP, hv]

theorem compareSchemas_self (S : SchemaInfo)
    (h1 : (S.Tables.map Prod.fst).Nodup)
    (h2 : ∀ p ∈ S.Tables, ((p.2 : TableInfo).Columns.map ColumnInfo.Name).Nodup) :
    CompareSchemas S S = [] := by
  simp only [CompareSchemas]
  have hadded : ∀ p ∈ S.Tables,
      (match S.Tables.lookup p.1 with
        | some _ => none
        | none =>
          some { type := "added", TableName := p.1,
                 Detail := "Table exists in source but not in target",
                 SQL := p.2.CreateSQL ++ ";" } : Option DiffResult) = none := by
    intro p hp
    obtain ⟨v, hv⟩ := Option.isSome_iff_exists.mp
      (lookup_isSome_of_mem (by simpa using hp))
    simp [hv]
  have hremoved : ∀ p ∈ S.Tables,
      (match S.Tables.lookup p.1 with
        | some _ => none
        | none =>
          some { type := "removed", TableName := p.1,
                 Detail := "Table exists in target but not in source",
                 SQL := "DROP TABLE `" ++ p.1 ++ "`;" } : Option DiffResult) = none := by
    intro p hp
    obtain ⟨v, hv⟩ := Option.isSome_iff_exists.mp
      (lookup_isSome_of_mem (by simpa using hp))
    simp [hv]
  have hmod : ∀ p ∈ S.Tables,
      (match S.Tables.lookup p.1 with
        | some targetTable => compareTableStructure p.1 p.2 targetTable
        | none => ([] : List DiffResult)) = [] := by
    intro p hp
    have hl : S.Tables.lookup p.1 = some p.2 :=
      lookup_eq_some_of_mem h1 (by simpa using hp)
    rw [hl]
    exact compareTableStructure_self p.1 p.2 (h2 p hp)
  rw [List.filterMap_eq_nil.mpr hadded, List.filterMap_eq_nil.mpr hremoved]
  have : (S.Tables.map (fun p =>
      (match S.Tables.lookup p.1 with
        | some targetTable => compareTableStructure p.1 p.2 targetTable
        | none => ([] : List DiffResult)))).flatten = [] := by
    rw [List.flatten_eq_nil_iff]
    intro l hl
    obtain ⟨p, hp, rfl⟩ := List.mem_map.mp hl
    exact hmod p hp
  rw [this]
  rfl

theorem compareKeyedData_self (targetType tableName : String)
    (primaryKeys columns : List String) (D : List (String × Row))
    (h1 : (D.map Prod.fst).Nodup)
    (h2 : ∀ p ∈ D, ((p.2 : Row).map Prod.fst).Nodup) :
    compareKeyedData targetType tableName primaryKeys columns D D = [] := by
  simp only [compareKeyedData, List.append_eq_nil, List.filterMap_eq_nil]
  constructor
  · intro p hp
    have hl : D.lookup p.1 = some p.2 :=
      lookup_eq_some_of_mem h1 (by simpa using hp)
    simp [hl, rowsEqual_refl (h2 p hp)]
  · intro p hp
    obtain ⟨v, hv⟩ := Option.isSome_iff_exists.mp
      (lookup_isSome_of_mem (by simpa using hp))
    simp [hv]

/-! ### Characterising the default-value classification -/

theorem numericScan_iff (l : List Char) (i : Nat) :
    numericScan l i = true ↔
      ∀ p ∈ l.enumFrom i,
        ('0' ≤ p.2 ∧ p.2 ≤ '9') ∨ p.2 = '.' ∨ (p.1 = 0 ∧ p.2 = '-') := by
  induction l generalizing i with
  | nil => simp [numericScan]
  | cons c rest ih =>
    rw [List.enumFrom_cons]
    have hb : ((i == 0 && c == '-') = true) ↔ (i = 0 ∧ c = '-') := by simp
    have hdot : ((c == '.') = true) ↔ (c = '.') := by simp
    have hlt : ((decide (c < '0') || decide (c > '9')) = true) ↔
        (c < '0' ∨ '9' < c) := by simp [gt_iff_lt]
    simp only [numericScan, hb, hdot, hlt]
    split_ifs with h1 h2 h3
    · rw [ih]
      constructor
      · intro hr p hp
        rcases List.mem_cons.mp hp with rfl | hp2
        · exact Or.inr (Or.inr h1)
        · exact hr p hp2
      · intro hall p hp
        exact hall p (List.mem_cons_of_mem _ hp)
    · rw [ih]
      constructor
      · intro hr p hp
        rcases List.mem_cons.mp hp with rfl | hp2
        · exact Or.inr (Or.inl h2)
        · exact hr p hp2
      · intro hall p hp
        exact hall p (List.mem_cons_of_mem _ hp)
    · simp only [Bool.false_eq_true, false_iff]
      intro hall
      rcases hall (i, c) (List.mem_cons_self _ _) with hdig | hdot2 | hmin
      · rcases h3 with hlt1 | hlt2
        · exact absurd hdig.1 (not_le_of_lt hlt1)
        · exact absurd hdig.2 (not_le_of_lt hlt2)
      · exact h2 hdot2
      · exact h1 hmin
    · rw [ih]
      have hdig : '0' ≤ c ∧ c ≤ '9' := by
        push_neg at h3
        exact ⟨h3.1, h3.2⟩
      constructor
      · intro hr p hp
        rcases List.mem_cons.mp hp with rfl | hp2
        · exact Or.inl hdig
        · exact hr p hp2
      · intro hall p hp
        exact hall p (List.mem_cons_of_mem _ hp)

theorem isNumericDefault_iff (d : String) :
    isNumericDefault d = true ↔ d.data ≠ [] ∧
      ∀ p ∈ d.data.enum,
        ('0' ≤ p.2 ∧ p.2 ≤ '9') ∨ p.2 = '.' ∨ (p.1 = 0 ∧ p.2 = '-') := by
  unfold isNumericDefault
  by_cases h : d = ""
  · subst h
    simp
  · rw [if_neg h]
    have hd : d.data ≠ [] := fun hn => h (String.ext hn)
    rw [numericScan_iff]
    exact ⟨fun hall => ⟨hd, hall⟩, fun hp => hp.2⟩

theorem isSpecialDefault_iff (d : String) :
    isSpecialDefault d = true ↔
      stringsToUpper d ∈ (["NULL", "CURRENT_TIMESTAMP", "CURRENT_DATE",
        "CURRENT_TIME", "NOW()", "TRUE", "FALSE"] : List String) ∨
      hasSuffixB (stringsToUpper d) "()" = true ∨
      hasPrefixB (stringsToUpper d) "(" = true := by
  unfold isSpecialDefault
  by_cases h1 : (["NULL", "CURRENT_TIMESTAMP", "CURRENT_DATE",
      "CURRENT_TIME", "NOW()", "TRUE", "FALSE"] : List String).contains
        (stringsToUpper d)
  · have hmem : stringsToUpper d ∈ (["NULL", "CURRENT_TIMESTAMP",
        "CURRENT_DATE", "CURRENT_TIME", "NOW()", "TRUE", "FALSE"] :
        List String) := by
      simpa using h1
    simp [h1, hmem]
  · have hnmem : stringsToUpper d ∉ (["NULL", "CURRENT_TIMESTAMP",
        "CURRENT_DATE", "CURRENT_TIME", "NOW()", "TRUE", "FALSE"] :
        List String) := by
      simpa using h1
    by_cases h2 : hasSuffixB (stringsToUpper d) "()" ||
        hasPrefixB (stringsToUpper d) "("
    · have h2' := Bool.or_eq_true _ _ |>.mp h2
      simp only [h1, Bool.false_eq_true, if_false, h2, if_true, true_iff]
      exact Or.inr (by simpa using h2')
    · have h2' : (hasSuffixB (stringsToUpper d) "()" ||
          hasPrefixB (stringsToUpper d) "(") = false := by simpa using h2
      simp only [h1, Bool.false_eq_true, if_false, h2', false_iff]
      rw [Bool.or_eq_false_iff] at h2'
      rintro (hmem | hsuf | hpre)
      · exact hnmem hmem
      · rw [h2'.1] at hsuf
        exact Bool.false_ne_true hsuf
      · rw [h2'.2] at hpre
        exact Bool.false_ne_true hpre

/-- Modelled from the spec (and the claim): a numeric literal as the spec
words it — an optional leading minus, digits, and at most one decimal
point, with no other characters. -/
def claimNumericLiteral (s : String) : Bool :=
  let l := if s.data.head? = some '-' then s.data.tail else s.data
  decide (l ≠ []) &&
    l.all (fun c => c = '.' || ('0' ≤ c && c ≤ '9')) &&
    decide (l.count '.' ≤ 1) &&
    l.any (fun c => '0' ≤ c && c ≤ '9')

/-! ### Concrete data for witnesses and counterexamples -/

def wColumn : ColumnInfo :=
  { Name := "x", type := "INT", Nullable := "YES", Key := "",
    Default := none, Extra := "", Position := 1 }

def wTable : TableInfo :=
  { Name := "t", CreateSQL := "CREATE TABLE `t` (`x` INT)",
    Columns := [wColumn], Indexes := [] }

def wSchemaA : SchemaInfo := { Database := "d", Tables := [("t", wTable)] }

def wSchemaB : SchemaInfo := { Database := "d", Tables := [] }

def collisionRowA : Row := [("a", GoValue.vstr "x|"), ("b", GoValue.vstr "y")]

def collisionRowB : Row := [("a", GoValue.vstr "x"), ("b", GoValue.vstr "|y")]

def collisionFetch : List (List GoValue) :=
  [[GoValue.vstr "x|", GoValue.vstr "y"], [GoValue.vstr "x", GoValue.vstr "|y"]]

def wKeyedRows : List (String × Row) :=
  [("1", [("id", GoValue.vint 1), ("name", GoValue.vstr "a")]),
   ("2", [("id", GoValue.vint 2), ("name", GoValue.vstr "b")])]

def c4Column : ColumnInfo :=
  { Name := "c", type := "INT", Nullable := "YES", Key := "",
    Default := some "1.2.3", Extra := "", Position := 1 }

def c2IdColumn : ColumnInfo :=
  { Name := "id", type := "INT", Nullable := "NO", Key := "PRI",
    Default := none, Extra := "", Position := 1 }

def c2ColX : ColumnInfo :=
  { Name := "x", type := "INT", Nullable := "YES", Key := "",
    Default := none, Extra := "", Position := 2 }

def c2ColY : ColumnInfo :=
  { Name := "y", type := "INT", Nullable := "YES", Key := "",
    Default := none, Extra := "", Position := 3 }

/-- A source table holding two columns absent from the target, in one
iteration order of the Go column map. -/
def c2SrcTable : TableInfo :=
  { Name := "t", CreateSQL := "CREATE TABLE `t` (`id` INT, `x` INT, `y` INT)",
    Columns := [c2IdColumn, c2ColX, c2ColY], Indexes := [] }

/-- The same table with the column map presented in another iteration
order (the column set and the name-to-descriptor mapping are unchanged). -/
def c2SrcTable2 : TableInfo :=
  { Name := "t", CreateSQL := "CREATE TABLE `t` (`id` INT, `x` INT, `y` INT)",
    Columns := [c2IdColumn, c2ColY, c2ColX], Indexes := [] }

def c2TgtTable : TableInfo :=
  { Name := "t", CreateSQL := "CREATE TABLE `t` (`id` INT)",
    Columns := [c2IdColumn], Indexes := [] }

def c2SchemaA : SchemaInfo := { Database := "d", Tables := [("t", c2SrcTable)] }

def c2SchemaA2 : SchemaInfo :=
  { Database := "d", Tables := [("t", c2SrcTable2)] }

def c2SchemaB : SchemaInfo := { Database := "d", Tables := [("t", c2TgtTable)] }

/-! ### The claims -/

/-- Modelled from the spec: the classification of one composite key.
Insert when only the source has it (new values are the full source row),
update when both sides have it and the rows differ under text-form
comparison (old = target row, new = source row), delete when only the
target has it (old = target row), and no entry when the rows are
text-equal. -/
def classifyKeySpec (targetType : DBType) (tableName : String)
    (primaryKeys columns : List String)
    (sourceData targetData : List (String × Row)) (k : String) :
    Option DataDiffResult :=
  match sourceData.lookup k, targetData.lookup k with
  | some sourceRow, some targetRow =>
    if rowsEqual sourceRow targetRow then none
    else some { type := "update", TableName := tableName,
                PrimaryKey := extractPrimaryKey sourceRow primaryKeys,
                OldValues := some targetRow, NewValues := some sourceRow,
                SQL := generateUpdateSQL targetType tableName sourceRow
                  primaryKeys }
  | some sourceRow, none =>
    some { type := "insert", TableName := tableName,
           PrimaryKey := extractPrimaryKey sourceRow primaryKeys,
           OldValues := none, NewValues := some sourceRow,
           SQL := generateInsertSQL targetType tableName sourceRow columns }
  | none, some targetRow =>
    some { type := "delete", TableName := tableName,
           PrimaryKey := extractPrimaryKey targetRow primaryKeys,
           OldValues := some targetRow, NewValues := none,
           SQL := generateDeleteSQL targetType tableName primaryKeys
             (extractPrimaryKey targetRow primaryKeys) }
  | none, none => none

/-- C1: with a non-empty primary-key column list and uniquely keyed row
sets, the data diff engine classifies every composite key exactly as the
spec describes: its output is `classifyKeySpec` applied once to each
source key and then once to each target-only key. -/
theorem compareKeyedData_classification (targetType tableName : String)
    (primaryKeys columns : List String)
    (sourceData targetData : List (String × Row))
    (hpk : primaryKeys ≠ [])
    (hs : (sourceData.map Prod.fst).Nodup)
    (ht : (targetData.map Prod.fst).Nodup) :
    compareKeyedData targetType tableName primaryKeys columns sourceData
        targetData =
      (sourceData.map Prod.fst ++
        (targetData.map Prod.fst).filter
          (fun k => !((sourceData.map Prod.fst).contains k))).filterMap
        (classifyKeySpec targetType tableName primaryKeys columns sourceData
          targetData) := by
  rw [List.filterMap_append]
  simp only [compareKeyedData]
  congr 1
  · rw [List.filterMap_map]
    apply List.filterMap_congr
    intro p hp
    have hl : sourceData.lookup p.1 = some p.2 :=
      lookup_eq_some_of_mem hs (by simpa using hp)
    show _ = classifyKeySpec targetType tableName primaryKeys columns
      sourceData targetData p.1
    rw [classifyKeySpec, hl]
    cases hb : targetData.lookup p.1 with
    | some trow => rfl
    | none => rfl
  · rw [List.filter_map, List.filterMap_map, List.filterMap_filter]
    apply List.filterMap_congr
    intro p hp
    cases hb : sourceData.lookup p.1 with
    | some v =>
      have hmem : p.1 ∈ sourceData.map Prod.fst := by
        rw [← lookup_isSome_iff_mem_keys]
        simp [hb]
      have hcont : ((sourceData.map Prod.fst).contains p.1) = true := by
        simp [List.contains, hmem]
      simp only [Function.comp]
      rw [hcont]
      simp
    | none =>
      have hmem : p.1 ∉ sourceData.map Prod.fst := by
        rw [← lookup_isSome_iff_mem_keys]
        simp [hb]
      have hcont : ((sourceData.map Prod.fst).contains p.1) = false := by
        simp [List.contains, hmem]
      have hl : targetData.lookup p.1 = some p.2 :=
        lookup_eq_some_of_mem ht (by simpa using hp)
      simp only [Function.comp, hcont, Bool.not_false, if_true]
      rw [classifyKeySpec, hb, hl]

def wKeyedTarget : List (String × Row) :=
  [("2", [("id", GoValue.vint 2), ("name", GoValue.vstr "B")]),
   ("3", [("id", GoValue.vint 3), ("name", GoValue.vstr "c")])]

/-- Witness for C1 at the spec's concrete scenario (source rows id 1, 2;
target rows id 2 with a differing name, and id 3). -/
theorem compareKeyedData_classification_witness :
    compareKeyedData MySQL "t" ["id"] ["id", "name"] wKeyedRows
        wKeyedTarget =
      (wKeyedRows.map Prod.fst ++
        (wKeyedTarget.map Prod.fst).filter
          (fun k => !((wKeyedRows.map Prod.fst).contains k))).filterMap
        (classifyKeySpec MySQL "t" ["id"] ["id", "name"] wKeyedRows
          wKeyedTarget) :=
  compareKeyedData_classification MySQL "t" ["id"] ["id", "name"]
    wKeyedRows wKeyedTarget (by decide) (by decide) (by decide)

theorem find?_position_eq_of_perm {l1 l2 : List ColumnInfo}
    (hp : l1.Perm l2) (hnd : (l2.map ColumnInfo.Position).Nodup) (q : Int) :
    l1.find? (fun c => c.Position == q) = l2.find? (fun c => c.Position == q)
    := by
  cases h1 : l1.find? (fun c => c.Position == q) with
  | none =>
    rw [eq_comm, List.find?_eq_none]
    intro x hx
    exact List.find?_eq_none.mp h1 x (hp.mem_iff.mpr hx)
  | some c =>
    have hmem : c ∈ l2 := hp.mem_iff.mp (List.mem_of_find?_eq_some h1)
    have hpc := List.find?_some h1
    cases h2 : l2.find? (fun c => c.Position == q) with
    | none => exact absurd hpc (List.find?_eq_none.mp h2 c hmem)
    | some c2 =>
      have hmem2 := List.mem_of_find?_eq_some h2
      have hpc2 := List.find?_some h2
      have hcc : c = c2 := List.inj_on_of_nodup_map hnd hmem hmem2 (by
        have e1 : c.Position = q := by simpa using hpc
        have e2 : c2.Position = q := by simpa using hpc2
        rw [e1, e2])
      rw [hcc]

/-- Presenting the source's column map in another iteration order returns
the same table-structure entries as a permutation: the entry multiset is
determined by the column map, only the emission order follows the
unspecified iteration order. -/
theorem compareTableStructure_perm (tn : String) (s s2 t : TableInfo)
    (hcols : s2.Columns.Perm s.Columns) (hidx : s2.Indexes = s.Indexes)
    (hnames : (s.Columns.map ColumnInfo.Name).Nodup)
    (hpos : (s.Columns.map ColumnInfo.Position).Nodup) :
    (compareTableStructure tn s2 t).Perm (compareTableStructure tn s t) := by
  have hmapperm : (s2.Columns.map (fun c => (c.Name, c))).Perm
      (s.Columns.map (fun c => (c.Name, c))) := hcols.map _
  have hkeys : ((s2.Columns.map (fun c => (c.Name, c))).map Prod.fst).Nodup
      := by
    rw [colMap_keys]
    exact ((hcols.map ColumnInfo.Name).nodup_iff).mpr hnames
  have hlook : ∀ k, (s2.Columns.map (fun c => (c.Name, c))).lookup k =
      (s.Columns.map (fun c => (c.Name, c))).lookup k :=
    lookup_eq_of_perm hmapperm hkeys
  have hfind : ∀ q : Int, s2.Columns.find? (fun c => c.Position == q) =
      s.Columns.find? (fun c => c.Position == q) :=
    fun q => find?_position_eq_of_perm hcols hpos q
  simp only [compareTableStructure, hidx]
  refine List.Perm.append (List.Perm.append (List.Perm.append
    (List.Perm.append ?_ ?_) ?_) ?_) ?_
  · rw [List.filterMap_congr (fun p _ => by rw [hfind])]
    exact List.Perm.filterMap _ hmapperm
  · rw [List.filterMap_congr (fun p _ => by rw [hlook])]
  · exact List.Perm.filterMap _ hmapperm
  · exact List.Perm.refl _
  · exact List.Perm.refl _

/-- Counterexample to C2 as stated: the same two snapshots — the table
maps are unchanged, the source's column map is merely presented in another
of Go's unspecified iteration orders — produce the two add-column entries,
tied on kind and table name, in a different relative order. The sort
cannot restore a canonical order for tied entries, so repeated calls need
not return entries in identical order. -/
theorem c2_counterexample :
    c2SrcTable2.Columns.Perm c2SrcTable.Columns ∧
    (CompareSchemas c2SchemaA2 c2SchemaB).Perm
      (CompareSchemas c2SchemaA c2SchemaB) ∧
    CompareSchemas c2SchemaA2 c2SchemaB ≠ CompareSchemas c2SchemaA c2SchemaB :=
  ⟨by decide, by decide, by decide⟩

/-- C2 (amended): the list returned by `CompareSchemas` is always sorted
first by kind with fixed precedence added < modified < removed (the
`typeOrder` precedence) and then by table name ascending, and the multiset
of entries is determined by the snapshots as maps: presenting either
snapshot's table map, or a table's column map, in any other iteration
order returns a permutation of the same entries. Only the relative order
of entries tied on both kind and table name follows the unspecified
iteration order, so repeated calls agree up to the order of tied entries,
not entry-for-entry. -/
theorem compareSchemas_sorted_order_stability (A B A2 B2 : SchemaInfo)
    (hA : A2.Tables.Perm A.Tables) (hB : B2.Tables.Perm B.Tables)
    (hAnd : (A.Tables.map Prod.fst).Nodup)
    (hBnd : (B.Tables.map Prod.fst).Nodup) :
    (CompareSchemas A B).Pairwise specDiffOrder ∧
    (CompareSchemas A2 B2).Perm (CompareSchemas A B) ∧
    (∀ (tn : String) (s s2 t : TableInfo),
      s2.Columns.Perm s.Columns → s2.Indexes = s.Indexes →
      (s.Columns.map ColumnInfo.Name).Nodup →
      (s.Columns.map ColumnInfo.Position).Nodup →
      (compareTableStructure tn s2 t).Perm (compareTableStructure tn s t))
    := by
  refine ⟨?_, ?_, fun tn s s2 t h1 h2 h3 h4 =>
    compareTableStructure_perm tn s s2 t h1 h2 h3 h4⟩
  · simp only [CompareSchemas]
    apply pairwise_sortResults_of_known
    intro e he
    apply knownKind_of_mem_compareSchemas (A := A) (B := B)
    simp only [CompareSchemas]
    exact he
  · have hAnd2 : (A2.Tables.map Prod.fst).Nodup :=
      (hA.map Prod.fst).nodup_iff.mpr hAnd
    have hBnd2 : (B2.Tables.map Prod.fst).Nodup :=
      (hB.map Prod.fst).nodup_iff.mpr hBnd
    have hlookA : ∀ k, A2.Tables.lookup k = A.Tables.lookup k :=
      lookup_eq_of_perm hA hAnd2
    have hlookB : ∀ k, B2.Tables.lookup k = B.Tables.lookup k :=
      lookup_eq_of_perm hB hBnd2
    simp only [CompareSchemas]
    refine (perm_sortResults _).trans
      (List.Perm.trans ?_ (perm_sortResults _).symm)
    refine List.Perm.append (List.Perm.append ?_ ?_) ?_
    · rw [List.filterMap_congr (fun p _ => by rw [hlookB p.1])]
      exact List.Perm.filterMap _ hA
    · rw [List.filterMap_congr (fun p _ => by rw [hlookA p.1])]
      exact List.Perm.filterMap _ hB
    · rw [List.map_congr_left (fun p _ => by rw [hlookB p.1])]
      exact ((hA.map _)).flatten

/-- Witness for C2's amended theorem at the counterexample snapshots: the
permuted column map gives a permutation of the same table-structure
entries. -/
theorem compareSchemas_sorted_order_stability_witness :
    (CompareSchemas c2SchemaA c2SchemaB).Pairwise specDiffOrder ∧
    (CompareSchemas c2SchemaA c2SchemaB).Perm
      (CompareSchemas c2SchemaA c2SchemaB) ∧
    (compareTableStructure "t" c2SrcTable2 c2TgtTable).Perm
      (compareTableStructure "t" c2SrcTable c2TgtTable) := by
  have h := compareSchemas_sorted_order_stability c2SchemaA c2SchemaB
    c2SchemaA c2SchemaB (List.Perm.refl _) (List.Perm.refl _) (by decide)
    (by decide)
  exact ⟨h.1, h.2.1, h.2.2 "t" c2SrcTable c2SrcTable2 c2TgtTable (by decide)
    rfl (by decide) (by decide)⟩

/-- Counterexample to C4 as stated: the default value 1.2.3 has two
decimal points, so it is neither a numeric literal in the claim's sense
(at most one decimal point) nor special, yet the column definition renders
it unquoted. -/
theorem c4_counterexample :
    buildColumnDef c4Column = "INT DEFAULT 1.2.3" ∧
    claimNumericLiteral "1.2.3" = false ∧
    isSpecialDefault "1.2.3" = false := by
  exact ⟨by decide, by decide, by decide⟩

/-- C4 (amended): a default value is emitted unquoted exactly when the
numeric test or the special test accepts it; the numeric test accepts
precisely the nonempty strings whose characters are digits or decimal
points — any number of decimal points — with a minus also allowed in first
position; the special test accepts exactly the fixed keyword set
(uppercased comparison), a value whose uppercase form ends with (), or one
that starts with (. Every other default value is wrapped in single
quotes. -/
theorem buildColumnDef_default_quoting (col : ColumnInfo) (d : String)
    (h : col.Default = some d) :
    (buildColumnDef col =
      (let d2 := if col.Nullable = "NO" then col.type ++ " NOT NULL"
                 else col.type
       let d3 := if isNumericDefault d || isSpecialDefault d then
                   d2 ++ " DEFAULT " ++ d
                 else d2 ++ " DEFAULT '" ++ d ++ "'"
       if col.Extra ≠ "" then d3 ++ " " ++ col.Extra else d3)) ∧
    (isNumericDefault d = true ↔ d.data ≠ [] ∧
      ∀ p ∈ d.data.enum,
        ('0' ≤ p.2 ∧ p.2 ≤ '9') ∨ p.2 = '.' ∨ (p.1 = 0 ∧ p.2 = '-')) ∧
    (isSpecialDefault d = true ↔
      stringsToUpper d ∈ (["NULL", "CURRENT_TIMESTAMP", "CURRENT_DATE",
        "CURRENT_TIME", "NOW()", "TRUE", "FALSE"] : List String) ∨
      hasSuffixB (stringsToUpper d) "()" = true ∨
      hasPrefixB (stringsToUpper d) "(" = true) := by
  refine ⟨?_, isNumericDefault_iff d, isSpecialDefault_iff d⟩
  simp only [buildColumnDef, h]

/-- Witness for C4's amended theorem at the counterexample column. -/
theorem buildColumnDef_default_quoting_witness :
    c4Column.Default = some "1.2.3" ∧
    buildColumnDef c4Column =
      (let d2 := if c4Column.Nullable = "NO" then
                   c4Column.type ++ " NOT NULL"
                 else c4Column.type
       let d3 := if isNumericDefault "1.2.3" || isSpecialDefault "1.2.3" then
                   d2 ++ " DEFAULT " ++ "1.2.3"
                 else d2 ++ " DEFAULT '" ++ "1.2.3" ++ "'"
       if c4Column.Extra ≠ "" then d3 ++ " " ++ c4Column.Extra else d3) :=
  ⟨rfl, (buildColumnDef_default_quoting c4Column "1.2.3" rfl).1⟩

/-- Counterexample to C5 as stated: a schema-diff statement embeds the
table name with backticks regardless of the dialect; for PostgreSQL the
pure quoting lookup wraps in double quotes, and the generated drop
statement does not use it. -/
theorem c5_counterexample :
    CompareSchemas wSchemaB wSchemaA =
      [{ type := "removed", TableName := "t",
         Detail := "Table exists in target but not in source",
         SQL := "DROP TABLE `t`;" }] ∧
    quoteIdentifier PostgreSQL "t" = "\"t\"" ∧
    "DROP TABLE `t`;" ≠
      "DROP TABLE " ++ quoteIdentifier PostgreSQL "t" ++ ";" :=
  ⟨by decide, rfl, by decide⟩

/-- C5 (amended): identifier quoting is the pure per-dialect lookup
(backticks for MySQL and for an unspecified or unknown dialect, double
quotes for PostgreSQL and SQLite, brackets for SQL Server); the data diff
engine applies it with the target dialect to the table name and every
column name of its insert, update and delete statements; the schema diff
engine does not consult the dialect and embeds names with backtick
(default) quoting unconditionally, shown here for its drop-table
statements. -/
theorem identifier_quoting (n : String) :
    (quoteIdentifier MySQL n = "`" ++ n ++ "`" ∧
     quoteIdentifier "" n = "`" ++ n ++ "`" ∧
     quoteIdentifier PostgreSQL n = "\"" ++ n ++ "\"" ∧
     quoteIdentifier SQLite n = "\"" ++ n ++ "\"" ∧
     quoteIdentifier SQLServer n = "[" ++ n ++ "]" ∧
     ∀ d : DBType,
       d ∉ ([MySQL, "", PostgreSQL, SQLite, SQLServer] : List DBType) →
         quoteIdentifier d n = "`" ++ n ++ "`") ∧
    (∀ (d : DBType) (tableName : String) (row : Row)
      (columns primaryKeys : List String) (pk : Row),
      generateInsertSQL d tableName row columns =
        "INSERT INTO " ++ quoteIdentifier d tableName ++ " (" ++
          String.intercalate ", "
            ((columns.filter (fun c => (row.lookup c).isSome)).map
              (fun c => quoteIdentifier d c)) ++
          ") VALUES (" ++
          String.intercalate ", "
            ((columns.filter (fun c => (row.lookup c).isSome)).map
              (fun c => escapeValue (rowGet row c))) ++ ");" ∧
      generateUpdateSQL d tableName row primaryKeys =
        "UPDATE " ++ quoteIdentifier d tableName ++ " SET " ++
          String.intercalate ", "
            ((row.filter (fun p => !(primaryKeys.contains p.1))).map
              (fun p => quoteIdentifier d p.1 ++ " = " ++ escapeValue p.2)) ++
          " WHERE " ++
          String.intercalate " AND "
            (primaryKeys.map
              (fun k => quoteIdentifier d k ++ " = " ++
                escapeValue (rowGet row k))) ++ ";" ∧
      generateDeleteSQL d tableName primaryKeys pk =
        "DELETE FROM " ++ quoteIdentifier d tableName ++ " WHERE " ++
          String.intercalate " AND "
            (primaryKeys.map
              (fun k => quoteIdentifier d k ++ " = " ++
                escapeValue (rowGet pk k))) ++ ";") ∧
    (∀ A B : SchemaInfo, ∀ e ∈ CompareSchemas A B, e.type = "removed" →
      e.SQL = "DROP TABLE `" ++ e.TableName ++ "`;") := by
  refine ⟨⟨rfl, rfl, rfl, rfl, rfl, ?_⟩, ?_, ?_⟩
  · intro d hd
    simp only [List.mem_cons, List.not_mem_nil, or_false, not_or] at hd
    obtain ⟨h1, h2, h3, h4, h5⟩ := hd
    simp [quoteIdentifier, h1, h2, h3, h4, h5]
  · intro d tableName row columns primaryKeys pk
    exact ⟨rfl, rfl, rfl⟩
  · intro A B e he hty
    rcases mem_compareSchemas_iff.mp he with ⟨p, hp, hb, rfl⟩ |
      ⟨p, hp, hb, rfl⟩ | ⟨p, hp, tt, hb, hcts⟩
    · exact absurd hty (by simp)
    · rfl
    · have hmod := (compareTableStructure_entry hcts).1
      rw [hty] at hmod
      exact absurd hmod (by decide)

/-- Witness for C5's amended theorem: the default branch at an unknown
dialect and the MySQL branch, at a concrete name. -/
theorem identifier_quoting_witness :
    quoteIdentifier "oracle" "t" = "`" ++ "t" ++ "`" ∧
    quoteIdentifier MySQL "t" = "`" ++ "t" ++ "`" :=
  ⟨(identifier_quoting "t").1.2.2.2.2.2 "oracle" (by decide),
   (identifier_quoting "t").1.1⟩

/-- C6: comparing a valid schema snapshot with itself returns no entry,
and comparing a keyed row set with itself returns no entry. -/
theorem diff_idempotence (S : SchemaInfo) (targetType tableName : String)
    (primaryKeys columns : List String) (D : List (String × Row))
    (hS1 : (S.Tables.map Prod.fst).Nodup)
    (hS2 : ∀ p ∈ S.Tables,
      ((p.2 : TableInfo).Columns.map ColumnInfo.Name).Nodup)
    (hD1 : (D.map Prod.fst).Nodup)
    (hD2 : ∀ p ∈ D, ((p.2 : Row).map Prod.fst).Nodup) :
    CompareSchemas S S = [] ∧
      compareKeyedData targetType tableName primaryKeys columns D D = [] :=
  ⟨compareSchemas_self S hS1 hS2,
   compareKeyedData_self targetType tableName primaryKeys columns D hD1 hD2⟩

/-- Witness for C6 at a concrete snapshot and keyed row set. -/
theorem diff_idempotence_witness :
    CompareSchemas wSchemaA wSchemaA = [] ∧
      compareKeyedData MySQL "t" ["id"] ["id", "name"] wKeyedRows wKeyedRows
        = [] :=
  diff_idempotence wSchemaA MySQL "t" ["id"] ["id", "name"] wKeyedRows
    (by decide) (by decide) (by decide) (by decide)

/-- The positional clause computed for an added column in
`compareTableStructure` (its afterClause): FIRST when the ordinal position
is not above 1, otherwise AFTER the first source column found at
position−1 (empty when none exists). -/
def addColumnClause (source : TableInfo) (col : ColumnInfo) : String :=
  if col.Position > (1 : Int) then
    match source.Columns.find? (fun c => c.Position == col.Position - 1) with
    | some c => " AFTER `" ++ c.Name ++ "`"
    | none => ""
  else " FIRST"

/-- The add-column entry emitted by `compareTableStructure` for a column
present only in the source. -/
def addColumnEntry (tableName : String) (source : TableInfo)
    (col : ColumnInfo) : DiffResult :=
  { type := "modified", TableName := tableName,
    Detail := "Add column: " ++ col.Name,
    SQL := "ALTER TABLE `" ++ tableName ++ "` ADD COLUMN `" ++ col.Name ++
      "` " ++ buildColumnDef col ++ addColumnClause source col ++ ";" }

/-- C7: for a table present in both snapshots and a column present only on
the source side, the generated add-column statement places the column by
the source ordering: the emitted entry is unique and carries FIRST when
the ordinal position is 1, and otherwise AFTER the column at ordinal
position−1 in the source ordering. -/
theorem addColumn_position_clause (A B : SchemaInfo) (T : String)
    (s t : TableInfo) (col : ColumnInfo)
    (hAnd : (A.Tables.map Prod.fst).Nodup)
    (hcnd : (s.Columns.map ColumnInfo.Name).Nodup)
    (hA : (T, s) ∈ A.Tables)
    (hB : B.Tables.lookup T = some t)
    (hcol : col ∈ s.Columns)
    (habs : col.Name ∉ t.Columns.map ColumnInfo.Name)
    (hge : (1 : Int) ≤ col.Position)
    (hprev : col.Position = 1 ∨
      ∃ c ∈ s.Columns, c.Position = col.Position - 1) :
    addColumnEntry T s col ∈ CompareSchemas A B ∧
    (∀ e ∈ CompareSchemas A B, e.TableName = T →
      e.Detail = "Add column: " ++ col.Name → e = addColumnEntry T s col) ∧
    (col.Position = 1 → addColumnClause s col = " FIRST") ∧
    (col.Position ≠ 1 →
      ∃ c ∈ s.Columns, c.Position = col.Position - 1 ∧
        addColumnClause s col = " AFTER `" ++ c.Name ++ "`") := by
  have hlookT : (t.Columns.map (fun c => (c.Name, c))).lookup col.Name
      = none := by
    rw [lookup_eq_none_iff_not_mem_keys, colMap_keys]
    exact habs
  have hclause : col.Position ≠ 1 →
      ∃ c ∈ s.Columns, c.Position = col.Position - 1 ∧
        addColumnClause s col = " AFTER `" ++ c.Name ++ "`" := by
    intro hne
    have hgt : (1 : Int) < col.Position := lt_of_le_of_ne hge (Ne.symm hne)
    rcases hprev with h1 | ⟨c0, hc0, hpos0⟩
    · exact absurd h1 hne
    · have hex : ∃ x ∈ s.Columns, (x.Position == col.Position - 1) = true :=
        ⟨c0, hc0, by simp [hpos0]⟩
      obtain ⟨c, hfind⟩ := Option.isSome_iff_exists.mp
        (List.find?_isSome.mpr hex)
      refine ⟨c, List.mem_of_find?_eq_some hfind, ?_, ?_⟩
      · simpa using List.find?_some hfind
      · rw [addColumnClause, if_pos hgt, hfind]
  refine ⟨?_, ?_, ?_, hclause⟩
  · apply mem_compareSchemas_iff.mpr
    refine Or.inr (Or.inr ⟨(T, s), hA, t, hB, ?_⟩)
    simp only [compareTableStructure, List.mem_append, List.mem_filterMap]
    refine Or.inl (Or.inl (Or.inl (Or.inl
      ⟨(col.Name, col), List.mem_map.mpr ⟨col, hcol, rfl⟩, ?_⟩)))
    simp only [hlookT]
    rfl
  · intro e he hname hdetail
    rcases mem_compareSchemas_iff.mp he with ⟨p, hp, hb, rfl⟩ |
      ⟨p, hp, hb, rfl⟩ | ⟨p, hp, tt, hb, hcts⟩
    · exfalso
      have := congrArg (fun x => x.data.head?) hdetail
      simp [String.data_append] at this
    · exfalso
      have := congrArg (fun x => x.data.head?) hdetail
      simp [String.data_append] at this
    · have hTn := (compareTableStructure_entry hcts).2
      have hpT : p.1 = T := by rw [← hTn, hname]
      have hps : p.2 = s := by
        have h1 : A.Tables.lookup T = some s := lookup_eq_some_of_mem hAnd hA
        have h2 : A.Tables.lookup T = some p.2 := by
          rw [← hpT]
          exact lookup_eq_some_of_mem hAnd (by simpa using hp)
        have h4 := h1.symm.trans h2
        injection h4 with h5
        exact h5.symm
      have htt : tt = t := by
        rw [hpT] at hb
        rw [hb] at hB
        exact Option.some.inj hB
      rw [hpT, hps, htt] at hcts
      simp only [compareTableStructure, List.mem_append,
        List.mem_filterMap] at hcts
      rcases hcts with ((((⟨q, hq, hfq⟩ | ⟨q, hq, hfq⟩) | ⟨q, hq, hfq⟩) |
        ⟨q, hq, hfq⟩) | ⟨q, hq, hfq⟩)
      · split at hfq
        · exact Option.noConfusion hfq
        · injection hfq with he2
          subst he2
          obtain ⟨c, hcmem, hceq⟩ := List.mem_map.mp hq
          cases hceq
          have hnames : c.Name = col.Name := by
            have hdd := congrArg String.data hdetail
            rw [String.data_append, String.data_append] at hdd
            exact String.ext (List.append_cancel_left hdd)
          have hceqcol : c = col := by
            have h1 : (s.Columns.map (fun c => (c.Name, c))).lookup col.Name
                = some col := by
              apply lookup_eq_some_of_mem
              · rw [colMap_keys]; exact hcnd
              · exact List.mem_map.mpr ⟨col, hcol, rfl⟩
            have h2 : (s.Columns.map (fun c => (c.Name, c))).lookup c.Name
                = some c := by
              apply lookup_eq_some_of_mem
              · rw [colMap_keys]; exact hcnd
              · exact List.mem_map.mpr ⟨c, hcmem, rfl⟩
            rw [hnames] at h2
            have := h1.symm.trans h2
            injection this with h3
            exact h3.symm
          subst hceqcol
          rfl
      · exfalso
        split at hfq
        · exact Option.noConfusion hfq
        · injection hfq with he2
          subst he2
          have := congrArg (fun x => x.data.head?) hdetail
          simp [String.data_append] at this
      · exfalso
        split at hfq
        · split at hfq
          · exact Option.noConfusion hfq
          · injection hfq with he2
            subst he2
            have := congrArg (fun x => x.data.head?) hdetail
            simp [String.data_append] at this
        · exact Option.noConfusion hfq
      · exfalso
        split at hfq
        · exact Option.noConfusion hfq
        · split at hfq
          · injection hfq with he2
            subst he2
            have := congrArg (fun x => x.data[4]?) hdetail
            simp [String.data_append] at this
          · split at hfq
            · exact Option.noConfusion hfq
            · injection hfq with he2
              subst he2
              have := congrArg (fun x => x.data.head?) hdetail
              simp [String.data_append] at this
      · exfalso
        split at hfq
        · exact Option.noConfusion hfq
        · split at hfq
          · exact Option.noConfusion hfq
          · injection hfq with he2
            subst he2
            have := congrArg (fun x => x.data.head?) hdetail
            simp [String.data_append] at this
  · intro h1
    rw [addColumnClause, if_neg (by rw [h1]; exact lt_irrefl 1)]

def c7IdColumn : ColumnInfo :=
  { Name := "id", type := "INT", Nullable := "NO", Key := "PRI",
    Default := none, Extra := "", Position := 1 }

def c7NewColumn : ColumnInfo :=
  { Name := "b", type := "TEXT", Nullable := "YES", Key := "",
    Default := none, Extra := "", Position := 2 }

def c7SourceTable : TableInfo :=
  { Name := "t", CreateSQL := "CREATE TABLE `t` (`id` INT, `b` TEXT)",
    Columns := [c7IdColumn, c7NewColumn], Indexes := [] }

def c7TargetTable : TableInfo :=
  { Name := "t", CreateSQL := "CREATE TABLE `t` (`id` INT)",
    Columns := [c7IdColumn], Indexes := [] }

def c7SchemaA : SchemaInfo :=
  { Database := "d", Tables := [("t", c7SourceTable)] }

def c7SchemaB : SchemaInfo :=
  { Database := "d", Tables := [("t", c7TargetTable)] }

/-- Witness for C7: a concrete pair of snapshots where the source has the
extra column b at ordinal position 2, so its statement carries an AFTER id
clause. -/
theorem addColumn_position_clause_witness :
    addColumnEntry "t" c7SourceTable c7NewColumn ∈
      CompareSchemas c7SchemaA c7SchemaB ∧
    (∀ e ∈ CompareSchemas c7SchemaA c7SchemaB, e.TableName = "t" →
      e.Detail = "Add column: " ++ c7NewColumn.Name →
        e = addColumnEntry "t" c7SourceTable c7NewColumn) ∧
    (c7NewColumn.Position = 1 →
      addColumnClause c7SourceTable c7NewColumn = " FIRST") ∧
    (c7NewColumn.Position ≠ 1 →
      ∃ c ∈ c7SourceTable.Columns, c.Position = c7NewColumn.Position - 1 ∧
        addColumnClause c7SourceTable c7NewColumn =
          " AFTER `" ++ c.Name ++ "`") :=
  addColumn_position_clause c7SchemaA c7SchemaB "t" c7SourceTable
    c7TargetTable c7NewColumn (by decide) (by decide) (by decide) (by decide)
    (by decide) (by decide) (by decide) (by decide)

/-- C9: a table `T` yields an added entry in `CompareSchemas A B` if and
only if it yields a removed entry in `CompareSchemas B A`. -/
theorem compareSchemas_antisymmetry (A B : SchemaInfo) (T : String) :
    (∃ e ∈ CompareSchemas A B, e.type = "added" ∧ e.TableName = T) ↔
      (∃ e ∈ CompareSchemas B A, e.type = "removed" ∧ e.TableName = T) := by
  have key : ∀ X Y : SchemaInfo,
      (∃ e ∈ CompareSchemas X Y, e.type = "added" ∧ e.TableName = T) ↔
        ∃ tbl, (T, tbl) ∈ X.Tables ∧ Y.Tables.lookup T = none := by
    intro X Y
    constructor
    · rintro ⟨e, he, hty, hname⟩
      rcases mem_compareSchemas_iff.mp he with ⟨p, hp, hb, rfl⟩ |
        ⟨p, hp, hb, rfl⟩ | ⟨p, hp, tt, hb, hcts⟩
      · obtain ⟨k, tbl⟩ := p
        cases hname
        exact ⟨tbl, hp, hb⟩
      · exact absurd hty (by simp)
      · have hmod := (compareTableStructure_entry hcts).1
        rw [hty] at hmod
        exact absurd hmod (by decide)
    · rintro ⟨tbl, hmem, hnone⟩
      exact ⟨_, mem_compareSchemas_iff.mpr
        (Or.inl ⟨(T, tbl), hmem, hnone, rfl⟩), rfl, rfl⟩
  have key2 : ∀ X Y : SchemaInfo,
      (∃ e ∈ CompareSchemas X Y, e.type = "removed" ∧ e.TableName = T) ↔
        ∃ tbl, (T, tbl) ∈ Y.Tables ∧ X.Tables.lookup T = none := by
    intro X Y
    constructor
    · rintro ⟨e, he, hty, hname⟩
      rcases mem_compareSchemas_iff.mp he with ⟨p, hp, hb, rfl⟩ |
        ⟨p, hp, hb, rfl⟩ | ⟨p, hp, tt, hb, hcts⟩
      · exact absurd hty (by simp)
      · obtain ⟨k, tbl⟩ := p
        cases hname
        exact ⟨tbl, hp, hb⟩
      · have hmod := (compareTableStructure_entry hcts).1
        rw [hty] at hmod
        exact absurd hmod (by decide)
    · rintro ⟨tbl, hmem, hnone⟩
      exact ⟨_, mem_compareSchemas_iff.mpr
        (Or.inr (Or.inl ⟨(T, tbl), hmem, hnone, rfl⟩)), rfl, rfl⟩
  rw [key A B, key2 B A]

/-- C3: with an empty primary-key column list, `CompareTableData` fails
with the fatal no-primary-key error before either table extent is fetched
(the fetch counter stays 0) and returns no result list. -/
theorem compareTableData_no_primary_key (sourceType targetType : DBType)
    (tableName : String) (columns : List String)
    (sourceFetched targetFetched : List (List GoValue)) :
    CompareTableData sourceType targetType tableName [] columns
        sourceFetched targetFetched =
      (Except.error ("table " ++ tableName ++ " has no primary key"), 0) :=
  rfl

/-- C8: `escapeValue` renders nil as the NULL keyword, integers as-is,
booleans as 1/0, and any other value as its text with every single quote
doubled, wrapped in single quotes; a value such as the name O'Brien
becomes a doubled-quote literal and re-parses back to the original
text. -/
theorem escapeValue_spec :
    escapeValue GoValue.vnull = "NULL" ∧
    (∀ i : Int, escapeValue (GoValue.vint i) = toString i) ∧
    escapeValue (GoValue.vbool true) = "1" ∧
    escapeValue (GoValue.vbool false) = "0" ∧
    (∀ s : String,
      escapeValue (GoValue.vstr s) = "'" ++ replaceQuotes s ++ "'") ∧
    escapeValue (GoValue.vstr "O'Brien") = "'O''Brien'" ∧
    (∀ s : String,
      unescapeLiteral (escapeValue (GoValue.vstr s)) = some s) := by
  refine ⟨rfl, fun i => rfl, rfl, rfl, fun s => rfl, by decide, fun s => ?_⟩
  exact unescape_escape s

/-- C10: the composite key is not injective; two rows with distinct
primary-key values containing the delimiter serialize to the same key, the
second silently overwrites the first in the keyed map, and
`CompareTableData` then emits a single insert where two rows differ. -/
theorem pkKey_collision :
    buildPkKey collisionRowA ["a", "b"] = buildPkKey collisionRowB ["a", "b"] ∧
    rowGet collisionRowA "a" ≠ rowGet collisionRowB "a" ∧
    rowGet collisionRowA "b" ≠ rowGet collisionRowB "b" ∧
    (getTableData ["a", "b"] ["a", "b"] collisionFetch).length = 1 ∧
    (CompareTableData MySQL MySQL "t" ["a", "b"] ["a", "b"]
        collisionFetch []).1.map List.length = Except.ok 1 := by
  refine ⟨rfl, by decide, by decide, rfl, rfl⟩

end SyncForge
